import Mathlib

set_option linter.unusedVariables false

/-!
Shallow embedding of SafeStringStream (src/src/SafeStringStream.cpp), the
baud-rate-limited software serial-line simulator, together with proofs of
the stated properties of its byte-release pacing engine.

Conventions of the embedding:
* `micros()` timestamps are passed explicitly as a `now : Nat` argument to
  every operation; the C code's `unsigned long` subtraction `uS - sendTimerStart`
  is modelled by `Nat` subtraction, which agrees with the 32-bit wrap-around
  subtraction whenever `sendTimerStart ≤ now` and the difference fits in 32
  bits (the theorems below always evaluate at `now = sendTimerStart + t`).
* The bounded character buffer type `SafeString` is an external collaborator
  (its implementation is not part of this source file); it is modelled from
  the spec's collaborator contract as a capacity-bounded list of byte values.
* `char` is 8-bit and signed on the AVR targets this library primarily
  supports, so the conversions `char -> int` in `read()`/`peek()` are
  modelled by `charToInt`.
-/

namespace SafeStringStreamModel

/-- Modelled from the spec: the bounded mutable character buffer
(`SafeString`), an external collaborator.  The spec's collaborator contract
asks for: current length, character access by index, removal of a range,
appension of a character, and a capacity/availability check.  It is modelled
as a capacity together with the list of stored byte values (front of the
list = index 0). -/
structure SafeStr where
  cap : Nat
  data : List Nat
  deriving DecidableEq, Repr

/-- `SafeString::length()`. -/
def SafeStr.length (s : SafeStr) : Nat := s.data.length

/-- `SafeString::isEmpty()`. -/
def SafeStr.isEmpty (s : SafeStr) : Bool := s.data.isEmpty

/-- `SafeString::charAt(0)` as used by the stream code (always called on a
non-empty buffer; returns the front character). -/
def SafeStr.charAt0 (s : SafeStr) : Nat := s.data.headD 0

/-- `SafeString::remove(0,1)`: drop the front character. -/
def SafeStr.removeFirst (s : SafeStr) : SafeStr := ⟨s.cap, s.data.drop 1⟩

/-- `SafeString::availableForWrite()`: remaining capacity. -/
def SafeStr.availableForWrite (s : SafeStr) : Nat := s.cap - s.data.length

/-- `SafeString::concat(char)`: append one character if there is room
(a full SafeString safely rejects the append). -/
def SafeStr.concatChar (s : SafeStr) (c : Nat) : SafeStr :=
  if s.data.length < s.cap then ⟨s.cap, s.data ++ [c]⟩ else s

/-- `SafeString::write(uint8_t)`: append one byte, returning 1 on success
and 0 when the buffer is full and rejects it. -/
def SafeStr.writeByte (s : SafeStr) (b : Nat) : Nat × SafeStr :=
  if s.data.length < s.cap then (1, ⟨s.cap, s.data ++ [b]⟩) else (0, s)

/-- The "not started yet" sentinel `(uint32_t)-1` stored in `baudRate`. -/
def SENTINEL : Nat := 4294967295

/-- The state of a `SafeStringStream`.  `sfPtr` is the borrowed outgoing
buffer (NULL modelled as `none`); `rxBuf` is the incoming buffer in effect
(either the caller-supplied `sfRxBufferPtr` or the internal 8-byte
`Rx_BUFFER`; both are persistent bounded buffers, so the selected one is
modelled directly). -/
structure SSStream where
  sfPtr : Option SafeStr
  rxBuf : SafeStr
  baudRate : Nat
  uS_perByte : Nat
  sendTimerStart : Nat
  deriving DecidableEq, Repr

/-- `SafeStringStream()` default constructor: `init()` sets `sfPtr = NULL`
and `baudRate = (uint32_t)-1`; the uninitialised `uS_perByte` and
`sendTimerStart` are modelled as 0 (no claim depends on their initial
values).  The internal `Rx_BUFFER` holds 8 chars. -/
def mkDefault : SSStream := ⟨none, ⟨8, []⟩, SENTINEL, 0, 0⟩

/-- `SafeStringStream(SafeString& sf)`: `init()` then `sfPtr = &sf`. -/
def mkWithSF (sf : SafeStr) : SSStream := ⟨some sf, ⟨8, []⟩, SENTINEL, 0, 0⟩

/-- `SafeStringStream(SafeString& sf, SafeString& sfRxBuffer)`. -/
def mkWithSFRx (sf rx : SafeStr) : SSStream := ⟨some sf, rx, SENTINEL, 0, 0⟩

/-- `SafeStringStream::begin(uint32_t _baudRate)`: stores the rate, zeroes
`uS_perByte`, and for a paced rate sets
`uS_perByte = (unsigned long)(13000000.0 / (float)baudRate) + 1` and
`sendTimerStart = micros()`.  The single-precision quotient is modelled by
`Nat` floor division, with which it agrees at every rate where the float
quotient is exact (in particular at all rates used in the concrete theorems
below); the `+ 1` and the timer reset are verbatim. -/
def beginRate (now rate : Nat) (s : SSStream) : SSStream :=
  let s1 := { s with baudRate := rate, uS_perByte := 0 }
  if rate ≠ 0 ∧ rate ≠ SENTINEL then
    { s1 with uS_perByte := 13000000 / rate + 1, sendTimerStart := now }
  else s1

/-- `SafeStringStream::begin(SafeString& sf, uint32_t baudRate)`: rebinds the
outgoing buffer, then `begin(baudRate)`. -/
def beginWithSF (now : Nat) (sf : SafeStr) (rate : Nat) (s : SSStream) : SSStream :=
  beginRate now rate { s with sfPtr := some sf }

/-- The release loop body of `releaseNextByte`, iterated `n` times: for each
byte, if the incoming buffer has no free capacity its oldest byte is removed,
then the outgoing buffer's front byte is appended to the incoming buffer and
removed from the outgoing buffer. -/
def moveBytes : Nat → SafeStr → SafeStr → SafeStr × SafeStr
  | 0, sf, rx => (sf, rx)
  | n + 1, sf, rx =>
    let rx1 := if rx.availableForWrite = 0 then rx.removeFirst else rx
    moveBytes n sf.removeFirst (rx1.concatChar sf.charAt0)

/-- `SafeStringStream::releaseNextByte()`: returns the excess (unspent)
elapsed time and the state with released bytes moved; the caller is
responsible for the `sendTimerStart = micros() - excessTime` update (exactly
as in the C code, where `releaseNextByte` itself never writes
`sendTimerStart`).  Note the remainder is computed from the UNclamped
character count, exactly as in the source. -/
def releaseNextByte (now : Nat) (s : SSStream) : Nat × SSStream :=
  match s.sfPtr with
  | none => (0, s)
  | some sf =>
    if s.baudRate = SENTINEL then (0, s)
    else if s.baudRate = 0 then (0, s)
    else if sf.length = 0 then (0, s)
    else
      let excessTime := now - s.sendTimerStart
      let n := excessTime / s.uS_perByte
      if n = 0 then (excessTime, s)
      else
        let m := moveBytes (min n sf.length) sf s.rxBuf
        (excessTime - n * s.uS_perByte, { s with sfPtr := some m.1, rxBuf := m.2 })

/-- `SafeStringStream::availableForWrite()`: only checks `sfPtr == NULL`. -/
def availableForWriteOp (s : SSStream) : Nat :=
  match s.sfPtr with
  | none => 0
  | some sf => sf.availableForWrite

/-- `SafeStringStream::write(uint8_t b)`: only checks `sfPtr == NULL`; then
runs the scheduler, appends to the outgoing buffer, and sets
`sendTimerStart = micros() - excessTime`. -/
def writeOp (now b : Nat) (s : SSStream) : Nat × SSStream :=
  match s.sfPtr with
  | none => (0, s)
  | some _ =>
    let r := releaseNextByte now s
    match r.2.sfPtr with
    | none => (0, { r.2 with sendTimerStart := now - r.1 })
    | some sf1 =>
      let w := sf1.writeByte b
      (w.1, { r.2 with sfPtr := some w.2, sendTimerStart := now - r.1 })

/-- `SafeStringStream::available()`. -/
def availableOp (now : Nat) (s : SSStream) : Nat × SSStream :=
  match s.sfPtr with
  | none => (0, s)
  | some sf =>
    if s.baudRate = SENTINEL then (0, s)
    else if s.baudRate = 0 then (sf.length, s)
    else
      let r := releaseNextByte now s
      let s2 := { r.2 with sendTimerStart := now - r.1 }
      (s2.rxBuf.length, s2)

/-- The C++ conversion `char -> int` performed by `return c;` in `read()` and
`peek()`: `char` is signed 8-bit on the AVR targets this library primarily
supports, so byte values 128..255 come back as negative ints. -/
def charToInt (b : Nat) : Int :=
  if b < 128 then (b : Int) else (b : Int) - 256

/-- `SafeStringStream::read()`. -/
def readOp (now : Nat) (s : SSStream) : Int × SSStream :=
  match s.sfPtr with
  | none => (-1, s)
  | some sf =>
    if s.baudRate = SENTINEL then (-1, s)
    else if s.baudRate = 0 then
      if sf.isEmpty then (-1, s)
      else (charToInt sf.charAt0, { s with sfPtr := some sf.removeFirst })
    else
      let r := releaseNextByte now s
      let s2 := { r.2 with sendTimerStart := now - r.1 }
      if s2.rxBuf.isEmpty then (-1, s2)
      else (charToInt s2.rxBuf.charAt0, { s2 with rxBuf := s2.rxBuf.removeFirst })

/-- `SafeStringStream::peek()`: like `read()` but does not remove the byte. -/
def peekOp (now : Nat) (s : SSStream) : Int × SSStream :=
  match s.sfPtr with
  | none => (-1, s)
  | some sf =>
    if s.baudRate = SENTINEL then (-1, s)
    else if s.baudRate = 0 then
      if sf.isEmpty then (-1, s)
      else (charToInt sf.charAt0, s)
    else
      let r := releaseNextByte now s
      let s2 := { r.2 with sendTimerStart := now - r.1 }
      if s2.rxBuf.isEmpty then (-1, s2)
      else (charToInt s2.rxBuf.charAt0, s2)

/-- `SafeStringStream::flush()`: run the scheduler and account its consumed
time into `sendTimerStart`. -/
def flushOp (now : Nat) (s : SSStream) : SSStream :=
  let r := releaseNextByte now s
  { r.2 with sendTimerStart := now - r.1 }

/-- A sequence of `write` calls, all at the same instant `now`. -/
def writeList (now : Nat) (bs : List Nat) (s : SSStream) : SSStream :=
  bs.foldl (fun st b => (writeOp now b st).2) s

/-- `n` successive `read()` calls at the same instant `now`, collecting the
returned ints. -/
def readN : Nat → Nat → SSStream → List Int × SSStream
  | 0, _, s => ([], s)
  | n + 1, now, s =>
    let r := readOp now s
    let rest := readN n now r.2
    (r.1 :: rest.1, rest.2)

/-- Length of the outgoing buffer (0 when no buffer is bound). -/
def outLen (s : SSStream) : Nat :=
  match s.sfPtr with
  | none => 0
  | some sf => sf.length

/-- The per-byte transit time formula as the SPEC's words state it (for
comparison with the source's formula): `1_000_000 / (rate / 10)` rounded up,
approximately 10 bit-times per byte. -/
def spec_uS_perByte (rate : Nat) : Nat :=
  (1000000 + (rate / 10) - 1) / (rate / 10)

/-- States reachable through the public interface: the three constructors,
the two `begin` overloads, and the stream operations. -/
inductive Reachable : SSStream → Prop where
  | mk_default : Reachable mkDefault
  | mk_withSF (sf : SafeStr) : Reachable (mkWithSF sf)
  | mk_withSFRx (sf rx : SafeStr) : Reachable (mkWithSFRx sf rx)
  | step_begin (now rate : Nat) {s : SSStream} :
      Reachable s → Reachable (beginRate now rate s)
  | step_beginSF (now : Nat) (sf : SafeStr) (rate : Nat) {s : SSStream} :
      Reachable s → Reachable (beginWithSF now sf rate s)
  | step_write (now b : Nat) {s : SSStream} :
      Reachable s → Reachable ((writeOp now b s).2)
  | step_read (now : Nat) {s : SSStream} :
      Reachable s → Reachable ((readOp now s).2)
  | step_peek (now : Nat) {s : SSStream} :
      Reachable s → Reachable ((peekOp now s).2)
  | step_available (now : Nat) {s : SSStream} :
      Reachable s → Reachable ((availableOp now s).2)
  | step_flush (now : Nat) {s : SSStream} :
      Reachable s → Reachable (flushOp now s)

end SafeStringStreamModel
namespace SafeStringStreamModel

/-! Basic lemmas about the release loop -/

lemma moveBytes_fst (n : Nat) (sf rx : SafeStr) :
    (moveBytes n sf rx).1 = ⟨sf.cap, sf.data.drop n⟩ := by
  induction n generalizing sf rx with
  | zero => simp [moveBytes]
  | succ n ih =>
    simp only [moveBytes, ih, SafeStr.removeFirst]
    rw [List.drop_drop, Nat.add_comm]

lemma moveBytes_snd_len (n : Nat) (sf rx : SafeStr) :
    (moveBytes n sf rx).2.data.length ≤ rx.data.length + n := by
  induction n generalizing sf rx with
  | zero => simp [moveBytes]
  | succ n ih =>
    simp only [moveBytes]
    refine le_trans (ih _ _) ?_
    have h1 : (if rx.availableForWrite = 0 then rx.removeFirst else rx).data.length
        ≤ rx.data.length := by
      split <;> simp [SafeStr.removeFirst]
    have h2 : ∀ (r : SafeStr) (c : Nat),
        (r.concatChar c).data.length ≤ r.data.length + 1 := by
      intro r c
      simp only [SafeStr.concatChar]
      split <;> simp
    have h3 := h2 (if rx.availableForWrite = 0 then rx.removeFirst else rx) sf.charAt0
    omega

/-- The incoming buffer after releasing `n` bytes holds the last `rx.cap`
characters of `rx.data ++ sf.data.take n` (for positive capacity, stored
data within capacity, and at most the available characters released). -/
lemma moveBytes_snd (n : Nat) : ∀ (scap rcap : Nat) (sdata rdata : List Nat),
    0 < rcap → rdata.length ≤ rcap → n ≤ sdata.length →
    (moveBytes n ⟨scap, sdata⟩ ⟨rcap, rdata⟩).2 =
      ⟨rcap, (rdata ++ sdata.take n).drop ((rdata.length + n) - rcap)⟩ := by
  induction n with
  | zero =>
    intro scap rcap sdata rdata hc hrx hn
    have h0 : rdata.length - rcap = 0 := by omega
    simp [moveBytes, h0]
  | succ n ih =>
    intro scap rcap sdata rdata hc hrx hn
    cases sdata with
    | nil => simp at hn
    | cons hd tl =>
      simp only [List.length_cons] at hn
      by_cases hfull : rdata.length = rcap
      · cases rdata with
        | nil => simp at hfull; omega
        | cons r rtl =>
          have hfull2 : rtl.length + 1 = rcap := by simpa using hfull
          have hcond : (⟨rcap, r :: rtl⟩ : SafeStr).availableForWrite = 0 := by
            simp [SafeStr.availableForWrite]; omega
          have hroom : rtl.length < rcap := by omega
          have hstep : moveBytes (n + 1) ⟨scap, hd :: tl⟩ ⟨rcap, r :: rtl⟩
              = moveBytes n ⟨scap, tl⟩ ⟨rcap, rtl ++ [hd]⟩ := by
            simp [moveBytes, hcond, SafeStr.removeFirst, SafeStr.charAt0,
              SafeStr.concatChar, hroom]
          rw [hstep, ih scap rcap tl (rtl ++ [hd]) hc (by simp; omega) (by omega)]
          have hA : (rtl ++ [hd]).length + n - rcap = n := by simp; omega
          have hB : (r :: rtl).length + (n + 1) - rcap = n + 1 := by simp; omega
          rw [hA, hB, List.take_succ_cons, List.append_assoc, List.singleton_append,
            List.cons_append, List.drop_succ_cons]
      · have hlt : rdata.length < rcap := by omega
        have hcond : ¬ ((⟨rcap, rdata⟩ : SafeStr).availableForWrite = 0) := by
          simp [SafeStr.availableForWrite]; omega
        have hstep : moveBytes (n + 1) ⟨scap, hd :: tl⟩ ⟨rcap, rdata⟩
            = moveBytes n ⟨scap, tl⟩ ⟨rcap, rdata ++ [hd]⟩ := by
          simp [moveBytes, hcond, SafeStr.removeFirst, SafeStr.charAt0,
            SafeStr.concatChar, hlt]
        rw [hstep, ih scap rcap tl (rdata ++ [hd]) hc (by simp; omega) (by omega)]
        have hA : (rdata ++ [hd]).length + n - rcap = rdata.length + (n + 1) - rcap := by
          simp; omega
        rw [hA, List.take_succ_cons, List.append_assoc, List.singleton_append]

end SafeStringStreamModel
namespace SafeStringStreamModel

/-! Characterisations of the scheduler -/

lemma releaseNextByte_inactive (now : Nat) (s : SSStream)
    (h : s.sfPtr = none ∨ s.baudRate = 0 ∨ s.baudRate = SENTINEL) :
    releaseNextByte now s = (0, s) := by
  rcases h with h | h | h
  · simp only [releaseNextByte, h]
  · cases hs : s.sfPtr <;> simp [releaseNextByte, h, hs, SENTINEL]
  · cases hs : s.sfPtr <;> simp [releaseNextByte, h, hs]

lemma releaseNextByte_len0 (now : Nat) (s : SSStream) (sf : SafeStr)
    (hsf : s.sfPtr = some sf) (hL : sf.length = 0) :
    releaseNextByte now s = (0, s) := by
  simp only [releaseNextByte, hsf, hL]
  split_ifs <;> rfl

lemma releaseNextByte_elapsed (s : SSStream) (sf : SafeStr) (t : Nat)
    (hsf : s.sfPtr = some sf) (hb0 : s.baudRate ≠ 0) (hbS : s.baudRate ≠ SENTINEL)
    (hL : sf.length ≠ 0) :
    releaseNextByte (s.sendTimerStart + t) s =
      if t / s.uS_perByte = 0 then (t, s)
      else (t - (t / s.uS_perByte) * s.uS_perByte,
        { s with
          sfPtr := some (moveBytes (min (t / s.uS_perByte) sf.length) sf s.rxBuf).1,
          rxBuf := (moveBytes (min (t / s.uS_perByte) sf.length) sf s.rxBuf).2 }) := by
  simp only [releaseNextByte, hsf]
  rw [if_neg hbS, if_neg hb0, if_neg hL]
  simp only [Nat.add_sub_cancel_left]

lemma flushOp_inactive (now : Nat) (s : SSStream)
    (h : releaseNextByte now s = (0, s)) :
    flushOp now s = { s with sendTimerStart := now } := by
  simp only [flushOp, h, Nat.sub_zero]

lemma flushOp_elapsed_zero (s : SSStream) (sf : SafeStr) (t : Nat)
    (hsf : s.sfPtr = some sf) (hb0 : s.baudRate ≠ 0) (hbS : s.baudRate ≠ SENTINEL)
    (hL : sf.length ≠ 0) (h : t / s.uS_perByte = 0) :
    flushOp (s.sendTimerStart + t) s = s := by
  have hr : releaseNextByte (s.sendTimerStart + t) s = (t, s) := by
    rw [releaseNextByte_elapsed s sf t hsf hb0 hbS hL, if_pos h]
  simp only [flushOp, hr]
  rw [Nat.add_sub_cancel]

lemma flushOp_elapsed_pos (s : SSStream) (sf : SafeStr) (t : Nat)
    (hsf : s.sfPtr = some sf) (hb0 : s.baudRate ≠ 0) (hbS : s.baudRate ≠ SENTINEL)
    (hL : sf.length ≠ 0) (h : t / s.uS_perByte ≠ 0) :
    flushOp (s.sendTimerStart + t) s =
      { s with
        sfPtr := some ⟨sf.cap, sf.data.drop (min (t / s.uS_perByte) sf.length)⟩,
        rxBuf := (moveBytes (min (t / s.uS_perByte) sf.length) sf s.rxBuf).2,
        sendTimerStart := s.sendTimerStart + (t / s.uS_perByte) * s.uS_perByte } := by
  have hr : releaseNextByte (s.sendTimerStart + t) s =
      (t - (t / s.uS_perByte) * s.uS_perByte,
        { s with
          sfPtr := some (moveBytes (min (t / s.uS_perByte) sf.length) sf s.rxBuf).1,
          rxBuf := (moveBytes (min (t / s.uS_perByte) sf.length) sf s.rxBuf).2 }) := by
    rw [releaseNextByte_elapsed s sf t hsf hb0 hbS hL, if_neg h]
  have hle : (t / s.uS_perByte) * s.uS_perByte ≤ t := Nat.div_mul_le_self t _
  have harith : s.sendTimerStart + t - (t - t / s.uS_perByte * s.uS_perByte)
      = s.sendTimerStart + t / s.uS_perByte * s.uS_perByte := by omega
  simp only [flushOp, hr]
  rw [harith, moveBytes_fst]

/-! Configuration fields are untouched by the stream operations -/

lemma releaseNextByte_config (now : Nat) (s : SSStream) :
    (releaseNextByte now s).2.baudRate = s.baudRate ∧
    (releaseNextByte now s).2.uS_perByte = s.uS_perByte := by
  cases hs : s.sfPtr with
  | none => simp [releaseNextByte, hs]
  | some sf =>
    simp only [releaseNextByte, hs]
    split_ifs <;> simp

lemma beginRate_baud (now rate : Nat) (s : SSStream) :
    (beginRate now rate s).baudRate = rate := by
  unfold beginRate
  split <;> rfl

lemma beginRate_uS_pos (now rate : Nat) (s : SSStream)
    (h0 : rate ≠ 0) (hS : rate ≠ SENTINEL) :
    0 < (beginRate now rate s).uS_perByte := by
  unfold beginRate
  rw [if_pos ⟨h0, hS⟩]
  exact Nat.succ_pos _

lemma writeOp_config (now b : Nat) (s : SSStream) :
    (writeOp now b s).2.baudRate = s.baudRate ∧
    (writeOp now b s).2.uS_perByte = s.uS_perByte := by
  cases hs : s.sfPtr with
  | none => simp [writeOp, hs]
  | some sf =>
    simp only [writeOp, hs]
    cases h2 : (releaseNextByte now s).2.sfPtr <;>
      simp [(releaseNextByte_config now s).1, (releaseNextByte_config now s).2]

lemma availableOp_config (now : Nat) (s : SSStream) :
    (availableOp now s).2.baudRate = s.baudRate ∧
    (availableOp now s).2.uS_perByte = s.uS_perByte := by
  cases hs : s.sfPtr with
  | none => simp [availableOp, hs]
  | some sf =>
    simp only [availableOp, hs]
    split_ifs <;>
      simp [(releaseNextByte_config now s).1, (releaseNextByte_config now s).2]

lemma readOp_config (now : Nat) (s : SSStream) :
    (readOp now s).2.baudRate = s.baudRate ∧
    (readOp now s).2.uS_perByte = s.uS_perByte := by
  cases hs : s.sfPtr with
  | none => simp [readOp, hs]
  | some sf =>
    simp only [readOp, hs]
    split_ifs <;>
      simp [(releaseNextByte_config now s).1, (releaseNextByte_config now s).2]

lemma peekOp_config (now : Nat) (s : SSStream) :
    (peekOp now s).2.baudRate = s.baudRate ∧
    (peekOp now s).2.uS_perByte = s.uS_perByte := by
  cases hs : s.sfPtr with
  | none => simp [peekOp, hs]
  | some sf =>
    simp only [peekOp, hs]
    split_ifs <;>
      simp [(releaseNextByte_config now s).1, (releaseNextByte_config now s).2]

lemma flushOp_config (now : Nat) (s : SSStream) :
    (flushOp now s).baudRate = s.baudRate ∧
    (flushOp now s).uS_perByte = s.uS_perByte := by
  simp [flushOp, (releaseNextByte_config now s).1, (releaseNextByte_config now s).2]

end SafeStringStreamModel
namespace SafeStringStreamModel

/-! The public operations in terms of the scheduler -/

lemma availableOp_paced (now : Nat) (s : SSStream) (sf : SafeStr)
    (hsf : s.sfPtr = some sf) (hb0 : s.baudRate ≠ 0) (hbS : s.baudRate ≠ SENTINEL) :
    availableOp now s = ((flushOp now s).rxBuf.length, flushOp now s) := by
  simp only [availableOp, flushOp, hsf]
  rw [if_neg hbS, if_neg hb0]

lemma readOp_paced (now : Nat) (s : SSStream) (sf : SafeStr)
    (hsf : s.sfPtr = some sf) (hb0 : s.baudRate ≠ 0) (hbS : s.baudRate ≠ SENTINEL) :
    readOp now s =
      if (flushOp now s).rxBuf.isEmpty then (-1, flushOp now s)
      else (charToInt (flushOp now s).rxBuf.charAt0,
        { flushOp now s with rxBuf := (flushOp now s).rxBuf.removeFirst }) := by
  simp only [readOp, flushOp, hsf]
  rw [if_neg hbS, if_neg hb0]

lemma releaseNextByte_now_eq_start (s : SSStream) (sf : SafeStr)
    (hsf : s.sfPtr = some sf) :
    releaseNextByte s.sendTimerStart s = (0, s) := by
  simp only [releaseNextByte, hsf, Nat.sub_self, Nat.zero_div]
  split_ifs <;> rfl

lemma writeOp_at_now (s : SSStream) (sf : SafeStr) (b : Nat)
    (hsf : s.sfPtr = some sf) :
    writeOp s.sendTimerStart b s
      = ((sf.writeByte b).1, { s with sfPtr := some (sf.writeByte b).2 }) := by
  simp only [writeOp, hsf, releaseNextByte_now_eq_start s sf hsf, Nat.sub_zero]

lemma writeList_spec : ∀ (bs : List Nat) (now : Nat) (s : SSStream) (cap : Nat)
    (data : List Nat), s.sfPtr = some ⟨cap, data⟩ → s.sendTimerStart = now →
    data.length + bs.length ≤ cap →
    writeList now bs s = { s with sfPtr := some ⟨cap, data ++ bs⟩ } := by
  intro bs
  induction bs with
  | nil =>
    intro now s cap data hsf hnow hle
    simp only [writeList, List.foldl_nil, List.append_nil, ← hsf]
  | cons b bs ih =>
    intro now s cap data hsf hnow hle
    subst hnow
    simp only [writeList, List.foldl_cons]
    rw [writeOp_at_now s ⟨cap, data⟩ b hsf]
    have hwb : SafeStr.writeByte ⟨cap, data⟩ b = (1, ⟨cap, data ++ [b]⟩) := by
      simp only [SafeStr.writeByte]
      rw [if_pos]
      simp only [List.length_cons] at hle
      omega
    rw [hwb]
    have hih := ih s.sendTimerStart { s with sfPtr := some ⟨cap, data ++ [b]⟩ } cap
      (data ++ [b]) rfl rfl (by simp only [List.length_append, List.length_cons,
        List.length_nil, List.length_cons] at hle ⊢; omega)
    simp only [writeList] at hih
    rw [hih]
    rw [List.append_assoc, List.singleton_append]

lemma outLen_setTimer (s : SSStream) (x : Nat) :
    outLen { s with sendTimerStart := x } = outLen s := rfl

lemma outLen_flushOp_elapsed (s : SSStream) (sf : SafeStr) (t : Nat)
    (hsf : s.sfPtr = some sf) (hb0 : s.baudRate ≠ 0) (hbS : s.baudRate ≠ SENTINEL) :
    outLen (flushOp (s.sendTimerStart + t) s)
      = sf.length - min (t / s.uS_perByte) sf.length := by
  by_cases hL0 : sf.length = 0
  · have hrel := releaseNextByte_len0 (s.sendTimerStart + t) s sf hsf hL0
    rw [flushOp_inactive _ _ hrel, outLen_setTimer]
    simp only [outLen, hsf]
    simp [hL0]
  · by_cases h : t / s.uS_perByte = 0
    · rw [flushOp_elapsed_zero s sf t hsf hb0 hbS hL0 h, h]
      simp only [outLen, hsf]
      simp
    · rw [flushOp_elapsed_pos s sf t hsf hb0 hbS hL0 h]
      simp only [outLen, moveBytes_fst, SafeStr.length, List.length_drop]

lemma div_split (T t1 t2 : Nat) (hT : 0 < T) :
    (t1 + t2) / T = t1 / T + (t1 % T + t2) / T := by
  conv_lhs => rw [← Nat.div_add_mod t1 T]
  rw [Nat.add_assoc, Nat.mul_add_div hT]

end SafeStringStreamModel
namespace SafeStringStreamModel

lemma outLen_eq (s : SSStream) (sf : SafeStr) (h : s.sfPtr = some sf) :
    outLen s = sf.length := by
  simp [outLen, h]

/-! Claim C1: the begin(rate) per-byte time formula -/

/-- C1 counterexample: at rate 100, `begin` sets `uS_perByte` to
`13000000 / 100 + 1 = 130001`, not the spec's `1_000_000 / (100 / 10)`
rounded up, which is `100000`. -/
theorem spec_c1_counterexample :
    (beginRate 7 100 mkDefault).uS_perByte ≠ spec_uS_perByte 100 := by decide

/-- C1 (amended): for every paced rate (neither 0 nor the sentinel),
`begin(rate)` sets `uS_perByte` to `13000000 / rate` (truncated) `+ 1`
(about 13 bit-times per byte: start + 8 data + parity + 2 stop + 1),
resets `sendTimerStart` to the current time, and stores the rate. -/
theorem spec_c1_amended (now rate : Nat) (s : SSStream)
    (h0 : rate ≠ 0) (hS : rate ≠ SENTINEL) :
    (beginRate now rate s).uS_perByte = 13000000 / rate + 1 ∧
    (beginRate now rate s).sendTimerStart = now ∧
    (beginRate now rate s).baudRate = rate := by
  unfold beginRate
  rw [if_pos ⟨h0, hS⟩]
  exact ⟨rfl, rfl, rfl⟩

/-- C1 witness: instantiation of the amended claim at rate 9600. -/
theorem spec_c1_witness :
    (9600 : Nat) ≠ 0 ∧ (9600 : Nat) ≠ SENTINEL ∧
    ((beginRate 7 9600 mkDefault).uS_perByte = 13000000 / 9600 + 1 ∧
     (beginRate 7 9600 mkDefault).sendTimerStart = 7 ∧
     (beginRate 7 9600 mkDefault).baudRate = 9600) :=
  ⟨by decide, by decide, spec_c1_amended 7 9600 mkDefault (by decide) (by decide)⟩

/-! Claim C2: behaviour before any begin() call -/

/-- C2 counterexample: a stream constructed with an outgoing buffer but
never configured accepts `write` (returns 1 and appends the byte) and
reports the buffer's free capacity, because `write` and
`availableForWrite` only test for a missing buffer, not for the
unconfigured baud sentinel. -/
theorem spec_c2_counterexample :
    (writeOp 0 65 (mkWithSF ⟨10, []⟩)).1 = 1 ∧
    (writeOp 0 65 (mkWithSF ⟨10, []⟩)).2.sfPtr = some ⟨10, [65]⟩ ∧
    availableForWriteOp (mkWithSF ⟨10, []⟩) = 10 := by decide

/-- C2 (amended): before any configuration call (`baudRate` still the
sentinel), `read`/`peek` return -1 and `available` returns 0 for every
constructor; but `write` returns 0 and `availableForWrite` returns 0 only
when no outgoing buffer is bound — with a buffer bound, `write` already
appends to it (returning the buffer's own accept/reject result) and
`availableForWrite` reports its free capacity. -/
theorem spec_c2_amended (s : SSStream) (now b : Nat) (h : s.baudRate = SENTINEL) :
    (readOp now s).1 = -1 ∧ (peekOp now s).1 = -1 ∧ (availableOp now s).1 = 0 ∧
    (s.sfPtr = none → (writeOp now b s).1 = 0 ∧ availableForWriteOp s = 0) ∧
    (∀ sf, s.sfPtr = some sf →
      (writeOp now b s).1 = (sf.writeByte b).1 ∧
      (writeOp now b s).2.sfPtr = some (sf.writeByte b).2 ∧
      availableForWriteOp s = sf.availableForWrite) := by
  cases hs : s.sfPtr with
  | none => simp [readOp, peekOp, availableOp, writeOp, availableForWriteOp, hs]
  | some sf0 =>
    have hrel : releaseNextByte now s = (0, s) :=
      releaseNextByte_inactive now s (Or.inr (Or.inr h))
    refine ⟨?_, ?_, ?_, ?_, ?_⟩
    · simp [readOp, hs, h]
    · simp [peekOp, hs, h]
    · simp [availableOp, hs, h]
    · intro hnone
      exact absurd hnone (by simp)
    · intro sf hsf
      injection hsf with hEq
      subst hEq
      simp [writeOp, availableForWriteOp, hs, hrel]

/-- C2 witness: instantiation of the amended claim on an unconfigured
stream with a bound, empty outgoing buffer of capacity 3. -/
theorem spec_c2_witness :
    (mkWithSF ⟨3, []⟩).baudRate = SENTINEL ∧
    ((readOp 0 (mkWithSF ⟨3, []⟩)).1 = -1 ∧ (peekOp 0 (mkWithSF ⟨3, []⟩)).1 = -1 ∧
     (availableOp 0 (mkWithSF ⟨3, []⟩)).1 = 0 ∧
     ((mkWithSF ⟨3, []⟩).sfPtr = none →
       (writeOp 0 65 (mkWithSF ⟨3, []⟩)).1 = 0 ∧
       availableForWriteOp (mkWithSF ⟨3, []⟩) = 0) ∧
     (∀ sf, (mkWithSF ⟨3, []⟩).sfPtr = some sf →
       (writeOp 0 65 (mkWithSF ⟨3, []⟩)).1 = (sf.writeByte 65).1 ∧
       (writeOp 0 65 (mkWithSF ⟨3, []⟩)).2.sfPtr = some (sf.writeByte 65).2 ∧
       availableForWriteOp (mkWithSF ⟨3, []⟩) = sf.availableForWrite)) :=
  ⟨by decide, spec_c2_amended (mkWithSF ⟨3, []⟩) 0 65 (by decide)⟩

/-! Claim C3: the "none" sentinel collides with byte 0xFF -/

/-- C3: the code evaluated at the failing input.  Write byte 255 on a
paced stream (13000 baud, so `uS_perByte = 1001`), wait one byte time, and
`read()`: the byte is fetched but comes back as -1 (the `char` 0xFF is
sign-extended), which is exactly the "none" sentinel returned on an
unconfigured stream — the fetched valid byte is NOT distinguishable from
the sentinel. -/
theorem spec_c3_sentinel_collision :
    (readOp 1001 (writeOp 0 255 (beginRate 0 13000 (mkWithSF ⟨10, []⟩))).2).1 = -1 ∧
    (readOp 0 mkDefault).1 = -1 ∧
    (writeOp 0 255 (beginRate 0 13000 (mkWithSF ⟨10, []⟩))).1 = 1 := by decide

/-! Claim C9: scheduler evaluation on unconfigured/unpaced streams -/

/-- C9 counterexample: on an unpaced stream (`begin(0)` leaves
`sendTimerStart` at its prior value 0), `flush()` at time 100 rewrites
`sendTimerStart` to 100 — the last-evaluation timestamp IS modified,
contrary to the claim's "no state change". -/
theorem spec_c9_counterexample :
    (flushOp 100 (beginRate 0 0 (mkWithSF ⟨4, [65]⟩))).sendTimerStart ≠
      (beginRate 0 0 (mkWithSF ⟨4, [65]⟩)).sendTimerStart := by decide

/-- C9 (amended): for unconfigured or unpaced streams, `releaseNextByte`
itself returns 0 immediately with no state change (no byte transfer, no
buffer change, no timestamp change); `flush()` transfers no byte and
leaves both buffers unchanged, but does reset `sendTimerStart` to the
current time. -/
theorem spec_c9_amended (s : SSStream) (now : Nat)
    (h : s.sfPtr = none ∨ s.baudRate = 0 ∨ s.baudRate = SENTINEL) :
    releaseNextByte now s = (0, s) ∧
    flushOp now s = { s with sendTimerStart := now } := by
  have hr := releaseNextByte_inactive now s h
  exact ⟨hr, flushOp_inactive now s hr⟩

/-- C9 witness: instantiation of the amended claim on an unpaced stream. -/
theorem spec_c9_witness :
    ((beginRate 0 0 (mkWithSF ⟨4, [65]⟩)).sfPtr = none ∨
     (beginRate 0 0 (mkWithSF ⟨4, [65]⟩)).baudRate = 0 ∨
     (beginRate 0 0 (mkWithSF ⟨4, [65]⟩)).baudRate = SENTINEL) ∧
    (releaseNextByte 100 (beginRate 0 0 (mkWithSF ⟨4, [65]⟩))
        = (0, beginRate 0 0 (mkWithSF ⟨4, [65]⟩)) ∧
     flushOp 100 (beginRate 0 0 (mkWithSF ⟨4, [65]⟩))
        = { beginRate 0 0 (mkWithSF ⟨4, [65]⟩) with sendTimerStart := 100 }) :=
  ⟨by decide, spec_c9_amended (beginRate 0 0 (mkWithSF ⟨4, [65]⟩)) 100 (by decide)⟩

/-! Claim C10: the paced division is never by zero -/

/-- C10: in every reachable state whose baud rate is paced (neither 0 nor
the unconfigured sentinel) — exactly the states in which
`releaseNextByte` executes the division `elapsed / uS_perByte` —
`uS_perByte` is at least 1, because `begin()` adds 1 after the division
for every paced rate, so the division never divides by zero. -/
theorem spec_c10_no_div_by_zero (s : SSStream) (hr : Reachable s)
    (h0 : s.baudRate ≠ 0) (hS : s.baudRate ≠ SENTINEL) :
    0 < s.uS_perByte := by
  have key : ∀ u : SSStream, Reachable u →
      u.baudRate ≠ 0 → u.baudRate ≠ SENTINEL → 0 < u.uS_perByte := by
    intro u hu
    induction hu with
    | mk_default => intro h0 hS; exact absurd rfl hS
    | mk_withSF sf => intro h0 hS; exact absurd rfl hS
    | mk_withSFRx sf rx => intro h0 hS; exact absurd rfl hS
    | step_begin now rate hv ih =>
      intro h0 hS
      rw [beginRate_baud] at h0 hS
      exact beginRate_uS_pos now rate _ h0 hS
    | step_beginSF now sf rate hv ih =>
      intro h0 hS
      unfold beginWithSF at h0 hS ⊢
      rw [beginRate_baud] at h0 hS
      exact beginRate_uS_pos now rate _ h0 hS
    | step_write now b hv ih =>
      intro h0 hS
      rw [(writeOp_config now b _).1] at h0 hS
      rw [(writeOp_config now b _).2]
      exact ih h0 hS
    | step_read now hv ih =>
      intro h0 hS
      rw [(readOp_config now _).1] at h0 hS
      rw [(readOp_config now _).2]
      exact ih h0 hS
    | step_peek now hv ih =>
      intro h0 hS
      rw [(peekOp_config now _).1] at h0 hS
      rw [(peekOp_config now _).2]
      exact ih h0 hS
    | step_available now hv ih =>
      intro h0 hS
      rw [(availableOp_config now _).1] at h0 hS
      rw [(availableOp_config now _).2]
      exact ih h0 hS
    | step_flush now hv ih =>
      intro h0 hS
      rw [(flushOp_config now _).1] at h0 hS
      rw [(flushOp_config now _).2]
      exact ih h0 hS
  exact key s hr h0 hS

/-- C10 witness: a reachable paced state (default-constructed, then
`begin(9600)`) with a positive `uS_perByte`. -/
theorem spec_c10_witness :
    Reachable (beginRate 0 9600 mkDefault) ∧
    (beginRate 0 9600 mkDefault).baudRate ≠ 0 ∧
    (beginRate 0 9600 mkDefault).baudRate ≠ SENTINEL ∧
    0 < (beginRate 0 9600 mkDefault).uS_perByte :=
  ⟨Reachable.step_begin 0 9600 Reachable.mk_default, by decide, by decide,
    spec_c10_no_div_by_zero (beginRate 0 9600 mkDefault)
      (Reachable.step_begin 0 9600 Reachable.mk_default) (by decide) (by decide)⟩

end SafeStringStreamModel
namespace SafeStringStreamModel

/-! Claim C8: unpaced (rate = 0) immediacy -/

/-- C8: on a configured-unpaced stream (`baudRate = 0`), `available()`
returns exactly the outgoing buffer's current length with no state change,
and `read()`/`peek()` operate directly on the outgoing buffer's front —
the incoming buffer and the scheduler are bypassed entirely (the returned
states show the incoming buffer untouched; only `read` pops the outgoing
front). -/
theorem spec_c8_unpaced_direct (s : SSStream) (sf : SafeStr) (now : Nat)
    (h0 : s.baudRate = 0) (hsf : s.sfPtr = some sf) :
    (availableOp now s).1 = sf.length ∧ (availableOp now s).2 = s ∧
    (sf.data = [] → (readOp now s).1 = -1 ∧ (readOp now s).2 = s ∧
      (peekOp now s).1 = -1 ∧ (peekOp now s).2 = s) ∧
    (sf.data ≠ [] → (readOp now s).1 = charToInt sf.charAt0 ∧
      (readOp now s).2 = { s with sfPtr := some sf.removeFirst } ∧
      (peekOp now s).1 = charToInt sf.charAt0 ∧ (peekOp now s).2 = s) := by
  have hS : s.baudRate ≠ SENTINEL := by rw [h0]; decide
  refine ⟨?_, ?_, ?_, ?_⟩
  · simp [availableOp, hsf, h0, SENTINEL]
  · simp [availableOp, hsf, h0, SENTINEL]
  · intro he
    simp [readOp, peekOp, hsf, h0, SENTINEL, SafeStr.isEmpty, he]
  · intro hne
    have hemp : sf.isEmpty = false := by
      simp [SafeStr.isEmpty, hne]
    simp [readOp, peekOp, hsf, h0, SENTINEL, hemp]

/-- C8 witness: instantiation on an unpaced stream holding two bytes. -/
theorem spec_c8_witness :
    (beginRate 5 0 (mkWithSF ⟨4, [65, 66]⟩)).baudRate = 0 ∧
    (beginRate 5 0 (mkWithSF ⟨4, [65, 66]⟩)).sfPtr = some ⟨4, [65, 66]⟩ ∧
    ((availableOp 9 (beginRate 5 0 (mkWithSF ⟨4, [65, 66]⟩))).1
        = SafeStr.length ⟨4, [65, 66]⟩ ∧
     (availableOp 9 (beginRate 5 0 (mkWithSF ⟨4, [65, 66]⟩))).2
        = beginRate 5 0 (mkWithSF ⟨4, [65, 66]⟩) ∧
     ((⟨4, [65, 66]⟩ : SafeStr).data = [] →
       (readOp 9 (beginRate 5 0 (mkWithSF ⟨4, [65, 66]⟩))).1 = -1 ∧
       (readOp 9 (beginRate 5 0 (mkWithSF ⟨4, [65, 66]⟩))).2
          = beginRate 5 0 (mkWithSF ⟨4, [65, 66]⟩) ∧
       (peekOp 9 (beginRate 5 0 (mkWithSF ⟨4, [65, 66]⟩))).1 = -1 ∧
       (peekOp 9 (beginRate 5 0 (mkWithSF ⟨4, [65, 66]⟩))).2
          = beginRate 5 0 (mkWithSF ⟨4, [65, 66]⟩)) ∧
     ((⟨4, [65, 66]⟩ : SafeStr).data ≠ [] →
       (readOp 9 (beginRate 5 0 (mkWithSF ⟨4, [65, 66]⟩))).1
          = charToInt (SafeStr.charAt0 ⟨4, [65, 66]⟩) ∧
       (readOp 9 (beginRate 5 0 (mkWithSF ⟨4, [65, 66]⟩))).2
          = { beginRate 5 0 (mkWithSF ⟨4, [65, 66]⟩) with
                sfPtr := some (SafeStr.removeFirst ⟨4, [65, 66]⟩) } ∧
       (peekOp 9 (beginRate 5 0 (mkWithSF ⟨4, [65, 66]⟩))).1
          = charToInt (SafeStr.charAt0 ⟨4, [65, 66]⟩) ∧
       (peekOp 9 (beginRate 5 0 (mkWithSF ⟨4, [65, 66]⟩))).2
          = beginRate 5 0 (mkWithSF ⟨4, [65, 66]⟩))) :=
  ⟨by decide, by decide,
    spec_c8_unpaced_direct (beginRate 5 0 (mkWithSF ⟨4, [65, 66]⟩))
      ⟨4, [65, 66]⟩ 9 (by decide) (by decide)⟩

/-! Claim C4: releasing in two steps equals releasing in one step -/

/-- C4: on a paced stream with a non-empty outgoing buffer, evaluating the
scheduler (via `flush`) after elapsed time `t1` and again after further
elapsed time `t2` leaves the outgoing buffer at the same length as a
single evaluation after `t1 + t2` — i.e. the total number of released
bytes is the same for any split of the elapsed time; in particular a
zero-byte evaluation carries its unspent elapsed time forward (the
timestamp is not advanced), so no time is ever dropped. -/
theorem spec_c4_split_release (s : SSStream) (sf : SafeStr) (t1 t2 : Nat)
    (hsf : s.sfPtr = some sf) (hb0 : s.baudRate ≠ 0) (hbS : s.baudRate ≠ SENTINEL)
    (hT : 0 < s.uS_perByte) (hL : sf.length ≠ 0) :
    outLen (flushOp (s.sendTimerStart + t1 + t2) (flushOp (s.sendTimerStart + t1) s))
      = outLen (flushOp (s.sendTimerStart + t1 + t2) s) := by
  have hRHS : outLen (flushOp (s.sendTimerStart + t1 + t2) s)
      = sf.length - min ((t1 + t2) / s.uS_perByte) sf.length := by
    rw [Nat.add_assoc]
    exact outLen_flushOp_elapsed s sf (t1 + t2) hsf hb0 hbS
  by_cases hk1 : t1 / s.uS_perByte = 0
  · rw [flushOp_elapsed_zero s sf t1 hsf hb0 hbS hL hk1]
  · rw [flushOp_elapsed_pos s sf t1 hsf hb0 hbS hL hk1, hRHS]
    have hmod := Nat.div_add_mod t1 s.uS_perByte
    rw [Nat.mul_comm] at hmod
    have hge : t1 / s.uS_perByte ≤ (t1 + t2) / s.uS_perByte :=
      Nat.div_le_div_right (Nat.le_add_right t1 t2)
    by_cases hcl : sf.length ≤ t1 / s.uS_perByte
    · -- the whole outgoing buffer is released by the first evaluation
      rw [Nat.min_eq_right hcl]
      have hempty : SafeStr.length ⟨sf.cap, sf.data.drop sf.length⟩ = 0 := by
        simp [SafeStr.length]
      rw [flushOp_inactive _ _ (releaseNextByte_len0 _ _ _ rfl hempty), outLen_setTimer,
        outLen_eq _ _ rfl, hempty, Nat.min_eq_right (le_trans hcl hge)]
      omega
    · -- only t1 / uS_perByte bytes are released by the first evaluation
      have hlt : t1 / s.uS_perByte < sf.length := by omega
      rw [Nat.min_eq_left (Nat.le_of_lt hlt)]
      have htime : s.sendTimerStart + t1 + t2
          = (s.sendTimerStart + t1 / s.uS_perByte * s.uS_perByte)
            + (t1 % s.uS_perByte + t2) := by
        omega
      rw [htime]
      have happ := outLen_flushOp_elapsed
        { s with sfPtr := some ⟨sf.cap, sf.data.drop (t1 / s.uS_perByte)⟩,
                 rxBuf := (moveBytes (t1 / s.uS_perByte) sf s.rxBuf).2,
                 sendTimerStart := s.sendTimerStart + t1 / s.uS_perByte * s.uS_perByte }
        ⟨sf.cap, sf.data.drop (t1 / s.uS_perByte)⟩ (t1 % s.uS_perByte + t2) rfl hb0 hbS
      rw [show ({ s with
              sfPtr := some ⟨sf.cap, sf.data.drop (t1 / s.uS_perByte)⟩,
              rxBuf := (moveBytes (t1 / s.uS_perByte) sf s.rxBuf).2,
              sendTimerStart := s.sendTimerStart + t1 / s.uS_perByte * s.uS_perByte }
            : SSStream).sendTimerStart
          = s.sendTimerStart + t1 / s.uS_perByte * s.uS_perByte from rfl,
        show ({ s with
              sfPtr := some ⟨sf.cap, sf.data.drop (t1 / s.uS_perByte)⟩,
              rxBuf := (moveBytes (t1 / s.uS_perByte) sf s.rxBuf).2,
              sendTimerStart := s.sendTimerStart + t1 / s.uS_perByte * s.uS_perByte }
            : SSStream).uS_perByte = s.uS_perByte from rfl] at happ
      rw [happ]
      have hlen1 : SafeStr.length ⟨sf.cap, sf.data.drop (t1 / s.uS_perByte)⟩
          = sf.length - t1 / s.uS_perByte := by
        simp [SafeStr.length]
      rw [hlen1, div_split s.uS_perByte t1 t2 hT]
      omega

/-- C4 witness: instantiation with per-byte time 2, three buffered bytes,
and the split 3 + 2 microseconds (one byte after the first evaluation, a
second byte after the second). -/
theorem spec_c4_witness :
    (⟨some ⟨4, [10, 20, 30]⟩, ⟨8, []⟩, 13000000, 2, 100⟩ : SSStream).sfPtr
        = some ⟨4, [10, 20, 30]⟩ ∧
    (⟨some ⟨4, [10, 20, 30]⟩, ⟨8, []⟩, 13000000, 2, 100⟩ : SSStream).baudRate ≠ 0 ∧
    (⟨some ⟨4, [10, 20, 30]⟩, ⟨8, []⟩, 13000000, 2, 100⟩ : SSStream).baudRate ≠ SENTINEL ∧
    0 < (⟨some ⟨4, [10, 20, 30]⟩, ⟨8, []⟩, 13000000, 2, 100⟩ : SSStream).uS_perByte ∧
    SafeStr.length ⟨4, [10, 20, 30]⟩ ≠ 0 ∧
    outLen (flushOp
        ((⟨some ⟨4, [10, 20, 30]⟩, ⟨8, []⟩, 13000000, 2, 100⟩ : SSStream).sendTimerStart + 3 + 2)
        (flushOp
          ((⟨some ⟨4, [10, 20, 30]⟩, ⟨8, []⟩, 13000000, 2, 100⟩ : SSStream).sendTimerStart + 3)
          ⟨some ⟨4, [10, 20, 30]⟩, ⟨8, []⟩, 13000000, 2, 100⟩))
      = outLen (flushOp
        ((⟨some ⟨4, [10, 20, 30]⟩, ⟨8, []⟩, 13000000, 2, 100⟩ : SSStream).sendTimerStart + 3 + 2)
        ⟨some ⟨4, [10, 20, 30]⟩, ⟨8, []⟩, 13000000, 2, 100⟩) :=
  ⟨by decide, by decide, by decide, by decide, by decide,
    spec_c4_split_release ⟨some ⟨4, [10, 20, 30]⟩, ⟨8, []⟩, 13000000, 2, 100⟩
      ⟨4, [10, 20, 30]⟩ 3 2 (by decide) (by decide) (by decide) (by decide) (by decide)⟩

end SafeStringStreamModel
namespace SafeStringStreamModel

/-! Helper lemmas for the write-then-elapse scenarios -/

lemma available_le_div (s : SSStream) (sf : SafeStr) (t : Nat)
    (hsf : s.sfPtr = some sf) (hb0 : s.baudRate ≠ 0) (hbS : s.baudRate ≠ SENTINEL)
    (hrx : s.rxBuf.data = []) :
    (availableOp (s.sendTimerStart + t) s).1 ≤ t / s.uS_perByte := by
  rw [availableOp_paced _ s sf hsf hb0 hbS]
  show (flushOp (s.sendTimerStart + t) s).rxBuf.length ≤ t / s.uS_perByte
  by_cases hL0 : sf.length = 0
  · rw [flushOp_inactive _ _ (releaseNextByte_len0 _ _ _ hsf hL0)]
    show s.rxBuf.length ≤ _
    simp [SafeStr.length, hrx]
  · by_cases hk : t / s.uS_perByte = 0
    · rw [flushOp_elapsed_zero s sf t hsf hb0 hbS hL0 hk]
      simp [SafeStr.length, hrx]
    · rw [flushOp_elapsed_pos s sf t hsf hb0 hbS hL0 hk]
      show (moveBytes (min (t / s.uS_perByte) sf.length) sf s.rxBuf).2.length
          ≤ t / s.uS_perByte
      have hmb := moveBytes_snd_len (min (t / s.uS_perByte) sf.length) sf s.rxBuf
      rw [hrx] at hmb
      simp only [List.length_nil, SafeStr.length] at hmb ⊢
      have hmin : min (t / s.uS_perByte) sf.data.length ≤ t / s.uS_perByte :=
        Nat.min_le_left _ _
      omega

lemma readOp_full_release (s : SSStream) (c : Nat) (bs : List Nat) (t : Nat)
    (hsf : s.sfPtr = some ⟨c, bs⟩) (hb0 : s.baudRate ≠ 0) (hbS : s.baudRate ≠ SENTINEL)
    (hbsne : bs ≠ []) (hrx : s.rxBuf.data = []) (hrcap : bs.length ≤ s.rxBuf.cap)
    (hk : bs.length ≤ t / s.uS_perByte) :
    readOp (s.sendTimerStart + t) s
      = (charToInt (bs.headD 0),
         { s with sfPtr := some ⟨c, []⟩, rxBuf := ⟨s.rxBuf.cap, bs.drop 1⟩, sendTimerStart := s.sendTimerStart + (t / s.uS_perByte) * s.uS_perByte }) := by
  have hpos : 0 < bs.length := List.length_pos.mpr hbsne
  have hlen : SafeStr.length ⟨c, bs⟩ = bs.length := rfl
  have hLne : SafeStr.length ⟨c, bs⟩ ≠ 0 := by
    rw [hlen]
    omega
  have hrcap0 : 0 < s.rxBuf.cap := by omega
  have hk0 : t / s.uS_perByte ≠ 0 := by omega
  have hrxeta : s.rxBuf = ⟨s.rxBuf.cap, []⟩ := by
    have h1 : s.rxBuf = ⟨s.rxBuf.cap, s.rxBuf.data⟩ := rfl
    rw [h1, hrx]
  have hmin : min (t / s.uS_perByte) (SafeStr.length ⟨c, bs⟩) = bs.length := by
    rw [hlen]
    omega
  have hflush := flushOp_elapsed_pos s ⟨c, bs⟩ t hsf hb0 hbS hLne hk0
  rw [hmin] at hflush
  have hmv : (moveBytes bs.length ⟨c, bs⟩ s.rxBuf).2 = ⟨s.rxBuf.cap, bs⟩ := by
    rw [hrxeta]
    rw [moveBytes_snd bs.length c s.rxBuf.cap bs [] hrcap0 (by simp) (le_refl _)]
    simp [List.take_length, Nat.sub_eq_zero_of_le hrcap]
  rw [hmv] at hflush
  have hdrop : (⟨c, bs⟩ : SafeStr).data.drop bs.length = [] := by
    show bs.drop bs.length = []
    simp
  rw [hdrop] at hflush
  rw [readOp_paced _ s ⟨c, bs⟩ hsf hb0 hbS, hflush]
  have hemp : ({ s with sfPtr := some ⟨c, []⟩, rxBuf := ⟨s.rxBuf.cap, bs⟩, sendTimerStart := s.sendTimerStart + t / s.uS_perByte * s.uS_perByte } : SSStream).rxBuf.isEmpty = false := by
    show (⟨s.rxBuf.cap, bs⟩ : SafeStr).isEmpty = false
    simp [SafeStr.isEmpty, hbsne]
  rw [if_neg (by rw [hemp]; simp)]
  cases bs with
  | nil => exact absurd rfl hbsne
  | cons b btl =>
    simp [SafeStr.charAt0, SafeStr.removeFirst]

lemma readN_drain : ∀ (n : Nat) (now : Nat) (s : SSStream) (c : Nat),
    s.sfPtr = some ⟨c, []⟩ → s.baudRate ≠ 0 → s.baudRate ≠ SENTINEL →
    n ≤ s.rxBuf.data.length →
    (readN n now s).1 = (s.rxBuf.data.take n).map charToInt := by
  intro n
  induction n with
  | zero => intro now s c hsf hb0 hbS hn; simp [readN]
  | succ n ih =>
    intro now s c hsf hb0 hbS hn
    have hL0 : SafeStr.length ⟨c, ([] : List Nat)⟩ = 0 := by simp [SafeStr.length]
    have hrel := releaseNextByte_len0 now s _ hsf hL0
    have hflush : flushOp now s = { s with sendTimerStart := now } :=
      flushOp_inactive now s hrel
    cases hrx : s.rxBuf.data with
    | nil => rw [hrx] at hn; simp at hn
    | cons hd tl =>
      have hread : readOp now s = (charToInt hd, { s with sendTimerStart := now, rxBuf := ⟨s.rxBuf.cap, tl⟩ }) := by
        rw [readOp_paced now s _ hsf hb0 hbS, hflush]
        have hemp : ({ s with sendTimerStart := now } : SSStream).rxBuf.isEmpty
            = false := by
          show s.rxBuf.isEmpty = false
          simp [SafeStr.isEmpty, hrx]
        rw [if_neg (by rw [hemp]; simp)]
        have hch : ({ s with sendTimerStart := now } : SSStream).rxBuf.charAt0 = hd := by
          show s.rxBuf.charAt0 = hd
          simp [SafeStr.charAt0, hrx]
        have hrm : ({ s with sendTimerStart := now } : SSStream).rxBuf.removeFirst
            = ⟨s.rxBuf.cap, tl⟩ := by
          show s.rxBuf.removeFirst = _
          simp [SafeStr.removeFirst, hrx]
        rw [hch, hrm]
      simp only [readN, hread]
      have hih := ih now { s with sendTimerStart := now, rxBuf := ⟨s.rxBuf.cap, tl⟩ } c
        hsf hb0 hbS (by show n ≤ tl.length; rw [hrx] at hn; simpa using hn)
      have hdata : ({ s with sendTimerStart := now, rxBuf := ⟨s.rxBuf.cap, tl⟩ } : SSStream).rxBuf.data = tl := rfl
      rw [hdata] at hih
      rw [hih, List.take_succ_cons, List.map_cons]

end SafeStringStreamModel
namespace SafeStringStreamModel

/-! Claim C5: bytes never become readable faster than the rate allows -/

/-- C5: starting from a freshly configured paced stream, writing the bytes
`bs` at time `now0` and letting only `t < |bs| * T` elapse (where
`T = uS_perByte` for the configured rate), `available()` returns at most
`t / T`: pacing is a hard upper bound on how fast bytes become readable. -/
theorem spec_c5_pacing_bound (cap rcap rate now0 t : Nat) (bs : List Nat)
    (h0 : rate ≠ 0) (hS : rate ≠ SENTINEL) (hcap : bs.length ≤ cap)
    (ht : t < bs.length * (13000000 / rate + 1)) :
    (availableOp (now0 + t)
        (writeList now0 bs (beginRate now0 rate (mkWithSFRx ⟨cap, []⟩ ⟨rcap, []⟩)))).1
      ≤ t / (13000000 / rate + 1) := by
  have hbegin : beginRate now0 rate (mkWithSFRx ⟨cap, []⟩ ⟨rcap, []⟩)
      = ⟨some ⟨cap, []⟩, ⟨rcap, []⟩, rate, 13000000 / rate + 1, now0⟩ := by
    simp only [beginRate, mkWithSFRx]
    rw [if_pos ⟨h0, hS⟩]
  rw [hbegin]
  have hw := writeList_spec bs now0
    ⟨some ⟨cap, []⟩, ⟨rcap, []⟩, rate, 13000000 / rate + 1, now0⟩ cap [] rfl rfl
    (by simpa using hcap)
  rw [List.nil_append] at hw
  rw [hw]
  exact available_le_div { (⟨some ⟨cap, []⟩, ⟨rcap, []⟩, rate, 13000000 / rate + 1, now0⟩ : SSStream) with sfPtr := some ⟨cap, bs⟩ } ⟨cap, bs⟩ t rfl h0 hS rfl

/-- C5 witness: per-byte time 2 (rate 13000000), three bytes written,
elapsed 5 < 6: at most 5 / 2 = 2 bytes available. -/
theorem spec_c5_witness :
    (13000000 : Nat) ≠ 0 ∧ (13000000 : Nat) ≠ SENTINEL ∧
    ([1, 2, 3] : List Nat).length ≤ 5 ∧
    5 < ([1, 2, 3] : List Nat).length * (13000000 / 13000000 + 1) ∧
    (availableOp (0 + 5)
        (writeList 0 [1, 2, 3] (beginRate 0 13000000 (mkWithSFRx ⟨5, []⟩ ⟨8, []⟩)))).1
      ≤ 5 / (13000000 / 13000000 + 1) :=
  ⟨by decide, by decide, by decide, by decide,
    spec_c5_pacing_bound 5 8 13000000 0 5 [1, 2, 3] (by decide) (by decide)
      (by decide) (by decide)⟩

/-! Claim C6: released bytes are read back in exact write order -/

/-- C6: starting from a freshly configured paced stream whose receive
buffer can hold all of `bs` (no eviction), writing `bs` at time `now0` and
letting at least `|bs| * T` elapse, `|bs|` successive `read()` calls
return exactly the written bytes in write order (each as the `char -> int`
image of the byte): the scheduler moves bytes from the outgoing front to
the incoming back, and `read()` pops the incoming front. -/
theorem spec_c6_order_preservation (cap rcap rate now0 t : Nat) (bs : List Nat)
    (h0 : rate ≠ 0) (hS : rate ≠ SENTINEL) (hcap : bs.length ≤ cap)
    (hrcap : bs.length ≤ rcap) (ht : bs.length * (13000000 / rate + 1) ≤ t) :
    (readN bs.length (now0 + t)
        (writeList now0 bs (beginRate now0 rate (mkWithSFRx ⟨cap, []⟩ ⟨rcap, []⟩)))).1
      = bs.map charToInt := by
  have hbegin : beginRate now0 rate (mkWithSFRx ⟨cap, []⟩ ⟨rcap, []⟩)
      = ⟨some ⟨cap, []⟩, ⟨rcap, []⟩, rate, 13000000 / rate + 1, now0⟩ := by
    simp only [beginRate, mkWithSFRx]
    rw [if_pos ⟨h0, hS⟩]
  rw [hbegin]
  have hw := writeList_spec bs now0
    ⟨some ⟨cap, []⟩, ⟨rcap, []⟩, rate, 13000000 / rate + 1, now0⟩ cap [] rfl rfl
    (by simpa using hcap)
  rw [List.nil_append] at hw
  rw [hw]
  cases bs with
  | nil => simp [readN]
  | cons b btl =>
    have hT : 0 < 13000000 / rate + 1 := Nat.succ_pos _
    have hkge : (b :: btl).length ≤ t / (13000000 / rate + 1) := by
      rw [Nat.le_div_iff_mul_le hT]
      exact ht
    have hr1 := readOp_full_release
      { (⟨some ⟨cap, []⟩, ⟨rcap, []⟩, rate, 13000000 / rate + 1, now0⟩ : SSStream) with
          sfPtr := some ⟨cap, b :: btl⟩ }
      cap (b :: btl) t rfl h0 hS (by simp) rfl hrcap hkge
    rw [show ({ (⟨some ⟨cap, []⟩, ⟨rcap, []⟩, rate, 13000000 / rate + 1, now0⟩ : SSStream) with sfPtr := some ⟨cap, b :: btl⟩ } : SSStream).sendTimerStart = now0 from rfl] at hr1
    simp only [List.length_cons, readN]
    rw [hr1]
    rw [readN_drain btl.length (now0 + t)] <;>
      first
        | exact cap
        | rfl
        | exact h0
        | exact hS
        | simp
/-- C6 witness: rate 13000000 (per-byte time 2), bytes [10, 200, 30]
written (200 exercises the signed-char image -56), elapsed 6 = 3 bytes. -/
theorem spec_c6_witness :
    (13000000 : Nat) ≠ 0 ∧ (13000000 : Nat) ≠ SENTINEL ∧
    ([10, 200, 30] : List Nat).length ≤ 5 ∧
    ([10, 200, 30] : List Nat).length ≤ 8 ∧
    ([10, 200, 30] : List Nat).length * (13000000 / 13000000 + 1) ≤ 6 ∧
    (readN ([10, 200, 30] : List Nat).length (0 + 6)
        (writeList 0 [10, 200, 30] (beginRate 0 13000000 (mkWithSFRx ⟨5, []⟩ ⟨8, []⟩)))).1
      = ([10, 200, 30] : List Nat).map charToInt :=
  ⟨by decide, by decide, by decide, by decide, by decide,
    spec_c6_order_preservation 5 8 13000000 0 6 [10, 200, 30] (by decide) (by decide)
      (by decide) (by decide) (by decide)⟩

/-! Claim C7: receive-buffer overflow evicts oldest first -/

/-- C7: each release step on a full incoming buffer first evicts the
oldest byte and then appends the released byte (the `moveBytes` loop);
consequently, writing more bytes than the receive buffer's capacity and
allowing full pacing time leaves the incoming buffer holding exactly the
most recent capacity-worth of bytes, the oldest having been discarded
first. -/
theorem spec_c7_overflow_eviction (cap rcap rate now0 t : Nat) (bs : List Nat)
    (h0 : rate ≠ 0) (hS : rate ≠ SENTINEL) (hcap : bs.length ≤ cap)
    (hr0 : 0 < rcap) (hrlt : rcap < bs.length)
    (ht : bs.length * (13000000 / rate + 1) ≤ t) :
    (flushOp (now0 + t)
        (writeList now0 bs (beginRate now0 rate (mkWithSFRx ⟨cap, []⟩ ⟨rcap, []⟩)))).rxBuf
      = ⟨rcap, bs.drop (bs.length - rcap)⟩ := by
  have hbegin : beginRate now0 rate (mkWithSFRx ⟨cap, []⟩ ⟨rcap, []⟩)
      = ⟨some ⟨cap, []⟩, ⟨rcap, []⟩, rate, 13000000 / rate + 1, now0⟩ := by
    simp only [beginRate, mkWithSFRx]
    rw [if_pos ⟨h0, hS⟩]
  rw [hbegin]
  have hw := writeList_spec bs now0
    ⟨some ⟨cap, []⟩, ⟨rcap, []⟩, rate, 13000000 / rate + 1, now0⟩ cap [] rfl rfl
    (by simpa using hcap)
  rw [List.nil_append] at hw
  rw [hw]
  have hT : 0 < 13000000 / rate + 1 := Nat.succ_pos _
  have hk : bs.length ≤ t / (13000000 / rate + 1) := by
    rw [Nat.le_div_iff_mul_le hT]
    exact ht
  have hk0 : t / (13000000 / rate + 1) ≠ 0 := by omega
  have hLne : SafeStr.length ⟨cap, bs⟩ ≠ 0 := by
    show bs.length ≠ 0
    omega
  have hflush := flushOp_elapsed_pos
    { (⟨some ⟨cap, []⟩, ⟨rcap, []⟩, rate, 13000000 / rate + 1, now0⟩ : SSStream) with
        sfPtr := some ⟨cap, bs⟩ }
    ⟨cap, bs⟩ t rfl h0 hS hLne hk0
  rw [show ({ (⟨some ⟨cap, []⟩, ⟨rcap, []⟩, rate, 13000000 / rate + 1, now0⟩ : SSStream) with sfPtr := some ⟨cap, bs⟩ } : SSStream).sendTimerStart = now0 from rfl] at hflush
  rw [hflush]
  show (moveBytes (min (t / (13000000 / rate + 1)) (SafeStr.length ⟨cap, bs⟩))
      ⟨cap, bs⟩ (⟨rcap, []⟩ : SafeStr)).2 = ⟨rcap, bs.drop (bs.length - rcap)⟩
  have hmin : min (t / (13000000 / rate + 1)) (SafeStr.length ⟨cap, bs⟩) = bs.length := by
    show min (t / (13000000 / rate + 1)) bs.length = bs.length
    omega
  rw [hmin, moveBytes_snd bs.length cap rcap bs [] hr0 (by simp) (le_refl _)]
  simp

/-- C7 witness: five bytes through a 2-byte receive buffer at per-byte
time 2, elapsed 10: only the two most recent bytes remain. -/
theorem spec_c7_witness :
    (13000000 : Nat) ≠ 0 ∧ (13000000 : Nat) ≠ SENTINEL ∧
    ([1, 2, 3, 4, 5] : List Nat).length ≤ 5 ∧ (0 : Nat) < 2 ∧
    (2 : Nat) < ([1, 2, 3, 4, 5] : List Nat).length ∧
    ([1, 2, 3, 4, 5] : List Nat).length * (13000000 / 13000000 + 1) ≤ 10 ∧
    (flushOp (0 + 10)
        (writeList 0 [1, 2, 3, 4, 5] (beginRate 0 13000000 (mkWithSFRx ⟨5, []⟩ ⟨2, []⟩)))).rxBuf
      = ⟨2, ([1, 2, 3, 4, 5] : List Nat).drop (([1, 2, 3, 4, 5] : List Nat).length - 2)⟩ :=
  ⟨by decide, by decide, by decide, by decide, by decide, by decide,
    spec_c7_overflow_eviction 5 2 13000000 0 10 [1, 2, 3, 4, 5] (by decide) (by decide)
      (by decide) (by decide) (by decide) (by decide)⟩

end SafeStringStreamModel
